import Mathlib

/-!
Verification of the TODOapp backend route handlers.

A shallow embedding of the Express/TypeORM backend in `backend/index.ts`
together with the entity declarations and class-validator decorators in
`database.ts` (the `User`, `List`, `Task` classes) and the MariaDB schema
in `setup.sql`.  Pure Lean functions model:

* JavaScript `Number(string)` conversion of the `:id` path parameter
  (restricted to the string forms exercised here: optional sign, decimal
  digits with an optional fraction, `Infinity`, the empty string;
  everything else converts to `NaN`, as JavaScript does for such inputs);
* JavaScript `new Date(value)` conversion used by the task-create route
  (string parsing restricted to ISO `YYYY-MM-DD` date-only forms, which
  JavaScript parses as UTC midnight; every other string yields an
  Invalid Date, as JavaScript does for unrecognised forms);
* `class-transformer`'s `plainToInstance` (fields present in the plain
  body overwrite the class-field initialisers, absent fields keep them);
* `class-validator`'s `validate` for the decorators that appear in
  `database.ts` (`IsString`, `IsInt`, `IsBoolean`, `IsDate`,
  `IsOptional`), returning the per-field constraint violations in
  declaration order;
* TypeORM repository operations against an in-memory table per entity:
  `findOneBy`, `find` with a foreign-key filter, `merge` (defined body
  fields overwrite the loaded record field by field), `save` (update the
  row whose primary key equals the entity's id when one exists, insert —
  with the given id, or a store-generated one when the entity has none —
  otherwise) and `delete` (returning the affected row count).  Inserts
  and updates enforce the schema's NOT NULL and foreign-key constraints
  by failing (`none`), which the handlers' catch blocks turn into 500;
  finer MariaDB value coercions for non-key columns are not modelled.

Request bodies are JSON, so body field values are modelled by `JSVal`
(strings, finite numbers, booleans, null) extended with the `Date`
objects the task-create route writes into the body before
`plainToInstance` runs; `id` fields in bodies are modelled as numbers,
matching the integer ids the API documents.  Each route handler is a
function from its store(s), the raw `:id` path string and the body to a
response, the resulting store and a flag recording whether the store was
accessed at all, so that the claims about 400-before-store-access are
expressible.
-/

namespace TodoApp

/-- A JavaScript number as relevant to `Number(req.params.id)`:
`NaN`, the two infinities, or a finite value (modelled as a rational,
which is exact for every decimal literal). -/
inductive JSNum where
  | nan
  | posInf
  | negInf
  | fin (q : ℚ)
deriving DecidableEq

/-- JavaScript `isNaN` on a `JSNum`. -/
def JSNum.isNaN : JSNum → Bool
  | .nan => true
  | _ => false

/-- The JavaScript comparison `n <= 0` (false on `NaN`). -/
def JSNum.leZero : JSNum → Bool
  | .nan => false
  | .posInf => false
  | .negInf => true
  | .fin q => decide (q ≤ 0)

/-- Value of a list of decimal digit characters. -/
def digitsVal (cs : List Char) : ℕ :=
  cs.foldl (fun a c => 10 * a + (c.toNat - 48)) 0

/-- Magnitude part of a JavaScript decimal literal: digits, optionally
followed by a point and further digits (`"1"`, `"1.5"`, `"1."`, `".5"`);
`none` when the characters are not of this shape. -/
def parseDecMag (cs : List Char) : Option ℚ :=
  let ip := cs.takeWhile Char.isDigit
  let rest := cs.drop ip.length
  match rest with
  | [] => if ip.isEmpty then none else some (digitsVal ip)
  | c :: fp =>
    if c = '.' ∧ fp.all Char.isDigit ∧ ¬(ip.isEmpty ∧ fp.isEmpty) then
      some ((digitsVal ip : ℚ) + (digitsVal fp : ℚ) / (10 ^ fp.length))
    else none

/-- Signed part of the conversion: `Infinity` or a decimal magnitude. -/
def jsNumberSigned (cs : List Char) (neg : Bool) : JSNum :=
  if cs = "Infinity".toList then (if neg then .negInf else .posInf)
  else
    match parseDecMag cs with
    | some q => .fin (if neg then -q else q)
    | none => .nan

/-- Models the JavaScript `Number(string)` conversion on the string
forms exercised by the claims: the empty string converts to `0`, an
optional sign precedes `Infinity` or a decimal literal, and any other
string converts to `NaN` (as JavaScript does for such strings). -/
def jsNumber (s : String) : JSNum :=
  match s.toList with
  | [] => .fin 0
  | '+' :: rest => jsNumberSigned rest false
  | '-' :: rest => jsNumberSigned rest true
  | cs => jsNumberSigned cs false

/-- `validateIdParam` from `index.ts`: with `id = Number(req.params.id)`,
the request is rejected with 400 when `isNaN(id) || id <= 0`, and passed
on to the route handler otherwise.  `true` means the id is accepted. -/
def validateIdParam (n : JSNum) : Bool :=
  !(n.isNaN || n.leZero)

/-- A JSON body field value, extended with the JavaScript `Date` objects
that the task-create route writes into the body: a valid `Date` carries
its epoch-millisecond timestamp, `invalidDate` is a `Date` holding
`NaN`. -/
inductive JSVal where
  | str (s : String)
  | num (q : ℚ)
  | bool (b : Bool)
  | null
  | date (ms : ℤ)
  | invalidDate
deriving DecidableEq

/-- JavaScript truthiness of a defined `JSVal`: the empty string, `0`,
`false` and `null` are falsy; every `Date` object (Invalid Date
included) is truthy. -/
def JSVal.truthy : JSVal → Bool
  | .str s => decide (s ≠ "")
  | .num q => decide (q ≠ 0)
  | .bool b => b
  | .null => false
  | .date _ => true
  | .invalidDate => true

/-- Days from the civil epoch 1970-01-01 for a proleptic-Gregorian date
(Hinnant's days-from-civil algorithm, written for truncating integer
division, which is what `Int` division in Lean performs). -/
def daysFromCivil (y m d : ℤ) : ℤ :=
  let y2 := if m ≤ 2 then y - 1 else y
  let era := (if 0 ≤ y2 then y2 else y2 - 399) / 400
  let yoe := y2 - era * 400
  let doy := (153 * (if 2 < m then m - 3 else m + 9) + 2) / 5 + d - 1
  let doe := yoe * 365 + yoe / 4 - yoe / 100 + doy
  era * 146097 + doe - 719468

/-- Whether year `y` is a leap year in the Gregorian calendar. -/
def isLeapYear (y : ℕ) : Bool :=
  y % 4 = 0 && (y % 100 ≠ 0 || y % 400 = 0)

/-- Number of days of month `m` (1-based) in year `y`. -/
def daysInMonth (y m : ℕ) : ℕ :=
  if m = 2 then (if isLeapYear y then 29 else 28)
  else if m = 4 ∨ m = 6 ∨ m = 9 ∨ m = 11 then 30
  else 31

/-- Models the JavaScript `Date.parse` builtin, restricted to ISO
date-only strings `YYYY-MM-DD` (parsed by JavaScript as UTC midnight);
every other string — in particular any non-date word — yields `none`,
standing for an Invalid Date, as JavaScript yields `NaN` for
unrecognised forms.  The result is the epoch-millisecond timestamp. -/
def jsParseDate (s : String) : Option ℤ :=
  match s.toList with
  | [y1, y2, y3, y4, c1, m1, m2, c2, d1, d2] =>
    if c1 = '-' ∧ c2 = '-' ∧ [y1, y2, y3, y4, m1, m2, d1, d2].all Char.isDigit then
      let y := digitsVal [y1, y2, y3, y4]
      let m := digitsVal [m1, m2]
      let d := digitsVal [d1, d2]
      if 1 ≤ m ∧ m ≤ 12 ∧ 1 ≤ d ∧ d ≤ daysInMonth y m then
        some (86400000 * daysFromCivil y m d)
      else none
    else none
  | _ => none

/-- Models the JavaScript `new Date(value)` conversion performed by the
task-create route on a defined `dueDate` body value: numbers are taken
as epoch milliseconds (truncated to an integer, as `TimeClip` does),
strings go through `Date.parse`, booleans and `null` convert through
their numeric value, and `Date` arguments are copied. -/
def jsNewDate : JSVal → JSVal
  | .num q => .date (q.num / (q.den : ℤ))
  | .str s =>
    match jsParseDate s with
    | some t => .date t
    | none => .invalidDate
  | .bool b => .date (if b then 1 else 0)
  | .null => .date 0
  | .date t => .date t
  | .invalidDate => .invalidDate

/-- One constraint violation as produced by class-validator: the
offending property and the violated constraint. -/
structure FieldErr where
  property : String
  constraint : String
deriving DecidableEq

/-- `IsString` on a defined value. -/
def isStringOk : JSVal → Bool
  | .str _ => true
  | _ => false

/-- `IsInt` on a defined value (`Number.isInteger`). -/
def isIntOk : JSVal → Bool
  | .num q => decide (q.den = 1)
  | _ => false

/-- `IsDate` on a defined value: a `Date` instance whose time is not
`NaN` (so an Invalid Date fails the check). -/
def isDateOk : JSVal → Bool
  | .date _ => true
  | _ => false

/-- `IsBoolean` on a defined value. -/
def isBoolOk : JSVal → Bool
  | .bool _ => true
  | _ => false

/-- A property with a type decorator and `IsOptional`: validation is
skipped when the value is `null` (or undefined, which cannot arise here
because these properties carry class-field initialisers). -/
def checkOptV (prop cname : String) (ck : JSVal → Bool) (v : JSVal) : List FieldErr :=
  if v = .null then [] else if ck v then [] else [⟨prop, cname⟩]

/-! ## Entity candidates: the result of `plainToInstance` -/

/-- A `POST /api/users` or `PUT /api/users` JSON body: each entity
column may be present with a value or absent.  `id` values are modelled
as numbers. -/
structure UserBody where
  id : Option ℚ
  name : Option JSVal
deriving DecidableEq

/-- A `User` class instance as built by `plainToInstance`: the class has
no field initialisers, so the instance carries exactly the body's
defined fields. -/
structure UserCand where
  id : Option ℚ
  name : Option JSVal
deriving DecidableEq

/-- `plainToInstance(User, body)`. -/
def plainToUser (b : UserBody) : UserCand :=
  ⟨b.id, b.name⟩

/-- class-validator `validate` on a `User` instance: `name` carries
`@IsString`; `id` has no validation decorator. -/
def validateUser (c : UserCand) : List FieldErr :=
  match c.name with
  | some v => if isStringOk v then [] else [⟨"name", "isString"⟩]
  | none => [⟨"name", "isString"⟩]

/-- A `POST /api/lists` or `PUT /api/lists` JSON body. -/
structure ListBody where
  id : Option ℚ
  userId : Option JSVal
  name : Option JSVal
deriving DecidableEq

/-- A `List` class instance as built by `plainToInstance`. -/
structure ListCand where
  id : Option ℚ
  userId : Option JSVal
  name : Option JSVal
deriving DecidableEq

/-- `plainToInstance(List, body)`. -/
def plainToList (b : ListBody) : ListCand :=
  ⟨b.id, b.userId, b.name⟩

/-- class-validator `validate` on a `List` instance: `userId` carries
`@IsInt`, `name` carries `@IsString`; neither is optional, so an
undefined property fails its check. -/
def validateList (c : ListCand) : List FieldErr :=
  (match c.userId with
   | some v => if isIntOk v then [] else [⟨"userId", "isInt"⟩]
   | none => [⟨"userId", "isInt"⟩])
  ++ (match c.name with
      | some v => if isStringOk v then [] else [⟨"name", "isString"⟩]
      | none => [⟨"name", "isString"⟩])

/-- A `POST /api/tasks` or `PUT /api/tasks` JSON body. -/
structure TaskBody where
  id : Option ℚ
  listId : Option JSVal
  text : Option JSVal
  description : Option JSVal
  dueDate : Option JSVal
  completed : Option JSVal
deriving DecidableEq

/-- A `Task` class instance as built by `plainToInstance`:
`description`, `dueDate` and `completed` have class-field initialisers
(`""`, `new Date(0)`, `false`), so they are always defined; `listId` and
`text` have none. -/
structure TaskCand where
  id : Option ℚ
  listId : Option JSVal
  text : Option JSVal
  description : JSVal
  dueDate : JSVal
  completed : JSVal
deriving DecidableEq

/-- `plainToInstance(Task, body)`: defined body fields overwrite the
class-field initialisers, absent ones keep them. -/
def plainToTask (b : TaskBody) : TaskCand :=
  ⟨b.id, b.listId, b.text,
    b.description.getD (.str ""),
    b.dueDate.getD (.date 0),
    b.completed.getD (.bool false)⟩

/-- class-validator `validate` on a `Task` instance: `listId` is
`@IsInt`, `text` is `@IsString` (neither optional); `description`
(`@IsString`), `dueDate` (`@IsDate`) and `completed` (`@IsBoolean`) are
`@IsOptional`.  Violations are listed in property declaration order. -/
def validateTask (c : TaskCand) : List FieldErr :=
  (match c.listId with
   | some v => if isIntOk v then [] else [⟨"listId", "isInt"⟩]
   | none => [⟨"listId", "isInt"⟩])
  ++ (match c.text with
      | some v => if isStringOk v then [] else [⟨"text", "isString"⟩]
      | none => [⟨"text", "isString"⟩])
  ++ checkOptV "description" "isString" isStringOk c.description
  ++ checkOptV "dueDate" "isDate" isDateOk c.dueDate
  ++ checkOptV "completed" "isBoolean" isBoolOk c.completed

/-! ## The store: one in-memory table per entity

Rows keep their non-key column values as `JSVal`; every value a handler
actually saves has passed validation (or, for Task update, comes from a
previously saved row or the body), so reachable rows hold strings,
integer numbers, dates and booleans as the schema intends. -/

/-- A row of the `users` table. -/
structure UserRow where
  id : ℚ
  name : JSVal
deriving DecidableEq

/-- The `users` table with its AUTO_INCREMENT counter. -/
structure UserStore where
  rows : List UserRow
  nextId : ℚ
deriving DecidableEq

/-- A row of the `lists` table. -/
structure ListRow where
  id : ℚ
  userId : JSVal
  name : JSVal
deriving DecidableEq

/-- The `lists` table with its AUTO_INCREMENT counter. -/
structure ListStore where
  rows : List ListRow
  nextId : ℚ
deriving DecidableEq

/-- A row of the `tasks` table. -/
structure TaskRow where
  id : ℚ
  listId : JSVal
  text : JSVal
  description : JSVal
  dueDate : JSVal
  completed : JSVal
deriving DecidableEq

/-- The `tasks` table with its AUTO_INCREMENT counter. -/
structure TaskStore where
  rows : List TaskRow
  nextId : ℚ
deriving DecidableEq

/-- `findOneBy` with a primary-key filter: the first row whose id
equals the queried number (a non-finite or fractional query value
matches no stored row). -/
def findRow {R : Type} (idOf : R → ℚ) (rows : List R) (n : JSNum) : Option R :=
  rows.find? (fun r => decide (JSNum.fin (idOf r) = n))

/-- `delete(id)`: remove the rows whose primary key equals the queried
number and report the affected row count. -/
def deleteRows {R : Type} (idOf : R → ℚ) (rows : List R) (n : JSNum) : List R × ℕ :=
  let kept := rows.filter (fun r => !decide (JSNum.fin (idOf r) = n))
  (kept, rows.length - kept.length)

/-- A foreign-key value is admissible when it is a number matching the
id of an existing parent row. -/
def fkOk (parentIds : List ℚ) : JSVal → Bool
  | .num q => parentIds.any (fun p => decide (p = q))
  | _ => false

/-- `repository.save` for a `User` instance: insert the row (with a
store-generated id when the instance has none, with the given id when no
row carries it) or update the row whose id the instance carries.  A
missing or `null` `name` violates the schema's NOT NULL constraint, so
the statement fails (`none`), which the handler's catch block turns into
a 500. -/
def saveUser (st : UserStore) (c : UserCand) : Option (UserStore × UserRow) :=
  match c.name with
  | none => none
  | some nv =>
    if nv = .null then none
    else
      match c.id with
      | some i =>
        let row : UserRow := ⟨i, nv⟩
        if st.rows.any (fun r => decide (r.id = i)) then
          some (⟨st.rows.map (fun r => if r.id = i then row else r), st.nextId⟩, row)
        else
          some (⟨st.rows ++ [row], max st.nextId (i + 1)⟩, row)
      | none =>
        let row : UserRow := ⟨st.nextId, nv⟩
        some (⟨st.rows ++ [row], st.nextId + 1⟩, row)

/-- `repository.save` for a `List` instance: as for `User`, except that
`user_id` must additionally satisfy the foreign-key constraint against
the `users` table. -/
def saveList (userIds : List ℚ) (st : ListStore) (c : ListCand) :
    Option (ListStore × ListRow) :=
  match c.userId, c.name with
  | some uv, some nv =>
    if fkOk userIds uv && decide (nv ≠ .null) then
      match c.id with
      | some i =>
        let row : ListRow := ⟨i, uv, nv⟩
        if st.rows.any (fun r => decide (r.id = i)) then
          some (⟨st.rows.map (fun r => if r.id = i then row else r), st.nextId⟩, row)
        else
          some (⟨st.rows ++ [row], max st.nextId (i + 1)⟩, row)
      | none =>
        let row : ListRow := ⟨st.nextId, uv, nv⟩
        some (⟨st.rows ++ [row], st.nextId + 1⟩, row)
    else none
  | _, _ => none

/-- `repository.save` for a `Task` instance: `list_id` must satisfy the
foreign-key constraint against the `lists` table and `text` its NOT
NULL constraint. -/
def saveTask (listIds : List ℚ) (st : TaskStore) (c : TaskCand) :
    Option (TaskStore × TaskRow) :=
  match c.listId, c.text with
  | some lv, some tv =>
    if fkOk listIds lv && decide (tv ≠ .null) then
      match c.id with
      | some i =>
        let row : TaskRow := ⟨i, lv, tv, c.description, c.dueDate, c.completed⟩
        if st.rows.any (fun r => decide (r.id = i)) then
          some (⟨st.rows.map (fun r => if r.id = i then row else r), st.nextId⟩, row)
        else
          some (⟨st.rows ++ [row], max st.nextId (i + 1)⟩, row)
      | none =>
        let row : TaskRow := ⟨st.nextId, lv, tv, c.description, c.dueDate, c.completed⟩
        some (⟨st.rows ++ [row], st.nextId + 1⟩, row)
    else none
  | _, _ => none

/-- `repository.merge(user, req.body)`: body fields defined in the
entity metadata (id and name) overwrite the loaded record field by
field; absent fields are retained from the record. -/
def mergeUser (u : UserRow) (b : UserBody) : UserCand :=
  ⟨some (b.id.getD u.id), some (b.name.getD u.name)⟩

/-- `repository.merge(list, req.body)`. -/
def mergeList (l : ListRow) (b : ListBody) : ListCand :=
  ⟨some (b.id.getD l.id), some (b.userId.getD l.userId), some (b.name.getD l.name)⟩

/-- `repository.merge(task, req.body)`. -/
def mergeTask (t : TaskRow) (b : TaskBody) : TaskCand :=
  ⟨some (b.id.getD t.id), some (b.listId.getD t.listId), some (b.text.getD t.text),
    b.description.getD t.description, b.dueDate.getD t.dueDate,
    b.completed.getD t.completed⟩

/-! ## Route handlers -/

/-- The response a handler sends, by constructor: `badId` is the 400 of
`validateIdParam`, `badRequest` the 400 of entity validation (carrying
the per-field constraint violations), `notFound` a 404, `okOne` /
`okMany` a 200 with one row or a row array, `created` a 201,
`noContent` a 204, `serverError` the catch-block 500. -/
inductive Resp (R : Type) where
  | badId
  | badRequest (errors : List FieldErr)
  | notFound
  | okOne (row : R)
  | okMany (rows : List R)
  | created (row : R)
  | noContent
  | serverError
deriving DecidableEq

/-- The HTTP status code of a response. -/
def Resp.status {R : Type} : Resp R → ℕ
  | .badId => 400
  | .badRequest _ => 400
  | .notFound => 404
  | .okOne _ => 200
  | .okMany _ => 200
  | .created _ => 201
  | .noContent => 204
  | .serverError => 500

/-- What a route invocation produces: the response, the store it leaves
behind, and whether the store was accessed at all while handling the
request. -/
structure HOut (R σ : Type) where
  resp : Resp R
  store : σ
  accessed : Bool
deriving DecidableEq

/-- `GET /api/users/:id`: id validation, then `findOneBy` on the
primary key; 404 when absent. -/
def getUserById (st : UserStore) (idStr : String) : HOut UserRow UserStore :=
  let n := jsNumber idStr
  if validateIdParam n then
    match findRow UserRow.id st.rows n with
    | some u => ⟨.okOne u, st, true⟩
    | none => ⟨.notFound, st, true⟩
  else ⟨.badId, st, false⟩

/-- `POST /api/users`: `plainToInstance`, `validate` (400 with the
violations when any), then `save` and 201 with the saved row. -/
def postUsers (st : UserStore) (b : UserBody) : HOut UserRow UserStore :=
  let c := plainToUser b
  let errs := validateUser c
  if errs.isEmpty then
    match saveUser st c with
    | some (st2, row) => ⟨.created row, st2, true⟩
    | none => ⟨.serverError, st, true⟩
  else ⟨.badRequest errs, st, false⟩

/-- `PUT /api/users/:id`: id validation, `findOneBy` (404 when absent),
`merge` of the body onto the record, re-`validate` of the merged record
(400 with the violations when any), then `save` and 200. -/
def putUser (st : UserStore) (idStr : String) (b : UserBody) : HOut UserRow UserStore :=
  let n := jsNumber idStr
  if validateIdParam n then
    match findRow UserRow.id st.rows n with
    | some u =>
      let merged := mergeUser u b
      let errs := validateUser merged
      if errs.isEmpty then
        match saveUser st merged with
        | some (st2, row) => ⟨.okOne row, st2, true⟩
        | none => ⟨.serverError, st, true⟩
      else ⟨.badRequest errs, st, true⟩
    | none => ⟨.notFound, st, true⟩
  else ⟨.badId, st, false⟩

/-- `DELETE /api/users/:id`: id validation, then `delete`; 404 when no
row was affected, 204 otherwise. -/
def deleteUser (st : UserStore) (idStr : String) : HOut UserRow UserStore :=
  let n := jsNumber idStr
  if validateIdParam n then
    let res := deleteRows UserRow.id st.rows n
    if res.2 = 0 then ⟨.notFound, st, true⟩
    else ⟨.noContent, ⟨res.1, st.nextId⟩, true⟩
  else ⟨.badId, st, false⟩

/-- The `find({ where: { userId } })` filter: a list row matches when
its `userId` column equals the queried number. -/
def userIdMatches (n : JSNum) (r : ListRow) : Bool :=
  match n with
  | .fin q => decide (r.userId = .num q)
  | _ => false

/-- The `find({ where: { listId } })` filter: a task row matches when
its `listId` column equals the queried number. -/
def listIdMatches (n : JSNum) (r : TaskRow) : Bool :=
  match n with
  | .fin q => decide (r.listId = .num q)
  | _ => false

/-- `GET /api/lists/user/:id`: id validation, then `find` filtered by
`userId`; an empty result set is a 404, a non-empty one a 200 array. -/
def getListsByUser (st : ListStore) (idStr : String) : HOut ListRow ListStore :=
  let n := jsNumber idStr
  if validateIdParam n then
    let ls := st.rows.filter (userIdMatches n)
    if ls.isEmpty then ⟨.notFound, st, true⟩
    else ⟨.okMany ls, st, true⟩
  else ⟨.badId, st, false⟩

/-- `GET /api/lists/:id`. -/
def getListById (st : ListStore) (idStr : String) : HOut ListRow ListStore :=
  let n := jsNumber idStr
  if validateIdParam n then
    match findRow ListRow.id st.rows n with
    | some l => ⟨.okOne l, st, true⟩
    | none => ⟨.notFound, st, true⟩
  else ⟨.badId, st, false⟩

/-- `POST /api/lists`. -/
def postLists (userIds : List ℚ) (st : ListStore) (b : ListBody) : HOut ListRow ListStore :=
  let c := plainToList b
  let errs := validateList c
  if errs.isEmpty then
    match saveList userIds st c with
    | some (st2, row) => ⟨.created row, st2, true⟩
    | none => ⟨.serverError, st, true⟩
  else ⟨.badRequest errs, st, false⟩

/-- `PUT /api/lists/:id`: like `putUser`, with the merged record
re-validated before the save. -/
def putList (userIds : List ℚ) (st : ListStore) (idStr : String) (b : ListBody) :
    HOut ListRow ListStore :=
  let n := jsNumber idStr
  if validateIdParam n then
    match findRow ListRow.id st.rows n with
    | some l =>
      let merged := mergeList l b
      let errs := validateList merged
      if errs.isEmpty then
        match saveList userIds st merged with
        | some (st2, row) => ⟨.okOne row, st2, true⟩
        | none => ⟨.serverError, st, true⟩
      else ⟨.badRequest errs, st, true⟩
    | none => ⟨.notFound, st, true⟩
  else ⟨.badId, st, false⟩

/-- `DELETE /api/lists/:id`. -/
def deleteList (st : ListStore) (idStr : String) : HOut ListRow ListStore :=
  let n := jsNumber idStr
  if validateIdParam n then
    let res := deleteRows ListRow.id st.rows n
    if res.2 = 0 then ⟨.notFound, st, true⟩
    else ⟨.noContent, ⟨res.1, st.nextId⟩, true⟩
  else ⟨.badId, st, false⟩

/-- `GET /api/tasks/list/:id`: id validation, then `find` filtered by
`listId`; an empty result set is a 404, a non-empty one a 200 array. -/
def getTasksByList (st : TaskStore) (idStr : String) : HOut TaskRow TaskStore :=
  let n := jsNumber idStr
  if validateIdParam n then
    let ts := st.rows.filter (listIdMatches n)
    if ts.isEmpty then ⟨.notFound, st, true⟩
    else ⟨.okMany ts, st, true⟩
  else ⟨.badId, st, false⟩

/-- `GET /api/tasks/:id`. -/
def getTaskById (st : TaskStore) (idStr : String) : HOut TaskRow TaskStore :=
  let n := jsNumber idStr
  if validateIdParam n then
    match findRow TaskRow.id st.rows n with
    | some t => ⟨.okOne t, st, true⟩
    | none => ⟨.notFound, st, true⟩
  else ⟨.badId, st, false⟩

/-- The task-create route's body preprocessing: when `req.body.dueDate`
is truthy it is replaced by `new Date(req.body.dueDate)`; a falsy value
(absent, `null`, `""`, `0`, `false`) is left untouched. -/
def preprocessDueDate (b : TaskBody) : TaskBody :=
  match b.dueDate with
  | some v => if v.truthy then { b with dueDate := some (jsNewDate v) } else b
  | none => b

/-- The `Task` instance the create route validates and saves:
`plainToInstance` applied to the preprocessed body. -/
def taskCandidate (b : TaskBody) : TaskCand :=
  plainToTask (preprocessDueDate b)

/-- `POST /api/tasks`: `dueDate` preprocessing, `plainToInstance`,
`validate` (400 with the violations when any), then `save` and 201. -/
def postTasks (listIds : List ℚ) (st : TaskStore) (b : TaskBody) : HOut TaskRow TaskStore :=
  let c := taskCandidate b
  let errs := validateTask c
  if errs.isEmpty then
    match saveTask listIds st c with
    | some (st2, row) => ⟨.created row, st2, true⟩
    | none => ⟨.serverError, st, true⟩
  else ⟨.badRequest errs, st, false⟩

/-- `PUT /api/tasks/:id`: id validation, `findOneBy` (404 when absent),
`merge`, then `save` directly — unlike the User and List update routes,
no `validate` call is made on the merged record. -/
def putTask (listIds : List ℚ) (st : TaskStore) (idStr : String) (b : TaskBody) :
    HOut TaskRow TaskStore :=
  let n := jsNumber idStr
  if validateIdParam n then
    match findRow TaskRow.id st.rows n with
    | some t =>
      let merged := mergeTask t b
      match saveTask listIds st merged with
      | some (st2, row) => ⟨.okOne row, st2, true⟩
      | none => ⟨.serverError, st, true⟩
    | none => ⟨.notFound, st, true⟩
  else ⟨.badId, st, false⟩

/-- `DELETE /api/tasks/:id`. -/
def deleteTask (st : TaskStore) (idStr : String) : HOut TaskRow TaskStore :=
  let n := jsNumber idStr
  if validateIdParam n then
    let res := deleteRows TaskRow.id st.rows n
    if res.2 = 0 then ⟨.notFound, st, true⟩
    else ⟨.noContent, ⟨res.1, st.nextId⟩, true⟩
  else ⟨.badId, st, false⟩

/-! ## Helper lemmas about the save operations -/

/-- A successful `saveUser` returns the row built from the candidate:
its id is the candidate's id (the store counter when the candidate has
none) and its `name` is the candidate's defined `name` value. -/
theorem saveUser_row {st : UserStore} {c : UserCand} {st2 : UserStore} {row : UserRow}
    (h : saveUser st c = some (st2, row)) :
    row.id = c.id.getD st.nextId ∧ c.name = some row.name := by
  unfold saveUser at h
  split at h
  · exact Option.noConfusion h
  next nv hn =>
    split at h
    · exact Option.noConfusion h
    next hnull =>
      split at h
      next i hi =>
        split at h <;>
        · simp only [Option.some.injEq, Prod.mk.injEq] at h
          obtain ⟨-, h2⟩ := h
          subst h2
          simp [hn, hi]
      next hi =>
        simp only [Option.some.injEq, Prod.mk.injEq] at h
        obtain ⟨-, h2⟩ := h
        subst h2
        simp [hn, hi]

/-- A successful `saveTask` returns the row built from the candidate,
field by field. -/
theorem saveTask_row {listIds : List ℚ} {st : TaskStore} {c : TaskCand} {st2 : TaskStore}
    {row : TaskRow} (h : saveTask listIds st c = some (st2, row)) :
    row.id = c.id.getD st.nextId ∧ c.listId = some row.listId ∧ c.text = some row.text ∧
      row.description = c.description ∧ row.dueDate = c.dueDate ∧
      row.completed = c.completed := by
  unfold saveTask at h
  split at h
  next lv tv hl ht =>
    split at h
    next =>
      split at h
      next i hi =>
        split at h <;>
        · simp only [Option.some.injEq, Prod.mk.injEq] at h
          obtain ⟨-, h2⟩ := h
          subst h2
          simp [hl, ht, hi]
      next hi =>
        simp only [Option.some.injEq, Prod.mk.injEq] at h
        obtain ⟨-, h2⟩ := h
        subst h2
        simp [hl, ht, hi]
    next => exact Option.noConfusion h
  next => exact Option.noConfusion h

/-! ## The claims -/

/-- Claim C1, counterexample: `POST /api/tasks` with the body
`{text: "Buy milk"}` — even with a list present in the store — does not
return 201: the `Task` instance's undefined `listId` fails its `IsInt`
check (the entity declares `listId` without `IsOptional`), so the
handler answers 400 with the `listId` constraint violation and writes
nothing. -/
theorem task_create_text_only_rejected :
    postTasks [1] ⟨[], 1⟩ ⟨none, none, some (.str "Buy milk"), none, none, none⟩
      = ⟨.badRequest [⟨"listId", "isInt"⟩], ⟨[], 1⟩, false⟩ ∧
    (postTasks [1] ⟨[], 1⟩
        ⟨none, none, some (.str "Buy milk"), none, none, none⟩).resp.status = 400 := by
  exact ⟨rfl, rfl⟩

/-- Claim C1 (amended): a create-task body supplying `text` (a string)
together with an integer `listId` of an existing list, and omitting the
other fields, succeeds: 201, and the created task carries
`description = ""`, `completed = false` and `dueDate` = epoch zero; a
body holding only `text` is instead rejected with 400, because the
undefined `listId` fails its `IsInt` check. -/
theorem task_create_defaults (listIds : List ℚ) (st : TaskStore) (s : String) (q : ℚ)
    (hq : q.den = 1) (hfk : q ∈ listIds) :
    postTasks listIds st ⟨none, some (.num q), some (.str s), none, none, none⟩
      = ⟨.created ⟨st.nextId, .num q, .str s, .str "", .date 0, .bool false⟩,
          ⟨st.rows ++ [⟨st.nextId, .num q, .str s, .str "", .date 0, .bool false⟩],
            st.nextId + 1⟩, true⟩ ∧
    ∀ t : String,
      (postTasks listIds st ⟨none, none, some (.str t), none, none, none⟩).resp.status
        = 400 := by
  constructor
  · have hfk2 : fkOk listIds (.num q) = true := by
      simp only [fkOk, List.any_eq_true, decide_eq_true_eq]
      exact ⟨q, hfk, rfl⟩
    simp [postTasks, taskCandidate, preprocessDueDate, plainToTask, validateTask,
      checkOptV, isIntOk, isStringOk, isDateOk, isBoolOk, saveTask, hq, hfk2]
  · intro t
    rfl

/-- Claim C1 (amended) instantiated: with one list of id 1 in the
store, a body with `text = "Buy milk"` and `listId = 1` is created with
the documented defaults. -/
theorem task_create_defaults_witness :
    (postTasks [1] ⟨[], 1⟩
        ⟨none, some (.num 1), some (.str "Buy milk"), none, none, none⟩).resp
      = .created ⟨1, .num 1, .str "Buy milk", .str "", .date 0, .bool false⟩ ∧
    (postTasks [1] ⟨[], 1⟩
        ⟨none, none, some (.str "Buy milk"), none, none, none⟩).resp.status = 400 := by
  have h := task_create_defaults [1] ⟨[], 1⟩ "Buy milk" 1 (by decide) (by decide)
  exact ⟨by rw [h.1], h.2 "Buy milk"⟩

/-- Claim C2, counterexample: a create-task request whose `dueDate` is
the unparseable string `"garbage"` (all other fields valid) does not
fall back to the epoch-zero default: `new Date("garbage")` is an
Invalid Date, the instance fails its `IsDate` check, and the handler
answers 400 with the `dueDate` violation, creating no task at all. -/
theorem task_create_unparseable_duedate_rejected :
    jsParseDate "garbage" = none ∧
    postTasks [1] ⟨[], 1⟩
        ⟨none, some (.num 1), some (.str "x"), none, some (.str "garbage"), none⟩
      = ⟨.badRequest [⟨"dueDate", "isDate"⟩], ⟨[], 1⟩, false⟩ := by
  exact ⟨rfl, rfl⟩

/-- Claim C2 (amended): a truthy `dueDate` body value is converted with
the `Date` constructor before the entity is constructed; when `dueDate`
is absent the entity keeps its default, epoch zero, and a task created
from such a request carries epoch zero; but a present, unparseable
`dueDate` string does not fall back to the default — the Invalid Date
fails the `IsDate` check and the request is rejected with 400, nothing
being saved. -/
theorem task_duedate_handling (listIds : List ℚ) (st : TaskStore) (b : TaskBody) :
    (∀ v, b.dueDate = some v → v.truthy = true →
      (taskCandidate b).dueDate = jsNewDate v) ∧
    (b.dueDate = none →
      (taskCandidate b).dueDate = .date 0 ∧
      ∀ r, (postTasks listIds st b).resp = .created r → r.dueDate = .date 0) ∧
    (∀ s, b.dueDate = some (.str s) → s ≠ "" → jsParseDate s = none →
      (postTasks listIds st b).resp.status = 400 ∧
      (postTasks listIds st b).store = st) := by
  refine ⟨?_, ?_, ?_⟩
  · intro v hv ht
    simp [taskCandidate, preprocessDueDate, plainToTask, hv, ht]
  · intro hn
    refine ⟨by simp [taskCandidate, preprocessDueDate, plainToTask, hn], ?_⟩
    intro r h
    simp only [postTasks] at h
    by_cases he : (validateTask (taskCandidate b)).isEmpty
    · rw [if_pos he] at h
      cases hs : saveTask listIds st (taskCandidate b) with
      | none => rw [hs] at h; exact absurd h (by simp)
      | some p =>
        obtain ⟨st2, row⟩ := p
        rw [hs] at h
        simp only [Resp.created.injEq] at h
        subst h
        have hrow := (saveTask_row hs).2.2.2.2.1
        rw [hrow]
        simp [taskCandidate, preprocessDueDate, plainToTask, hn]
    · rw [if_neg he] at h
      exact absurd h (by simp)
  · intro s hdd hne hparse
    have hc : (taskCandidate b).dueDate = .invalidDate := by
      simp [taskCandidate, preprocessDueDate, plainToTask, hdd, JSVal.truthy, hne,
        jsNewDate, hparse]
    have hmem : (⟨"dueDate", "isDate"⟩ : FieldErr) ∈ validateTask (taskCandidate b) := by
      simp [validateTask, checkOptV, hc, isDateOk]
    have hfalse : (validateTask (taskCandidate b)).isEmpty = false := by
      rcases hl : validateTask (taskCandidate b) with - | ⟨a, l⟩
      · rw [hl] at hmem; exact absurd hmem (by simp)
      · rfl
    constructor
    · simp only [postTasks]
      rw [if_neg (by simp [hfalse])]
      rfl
    · simp only [postTasks]
      rw [if_neg (by simp [hfalse])]

/-- Claim C2 (amended) instantiated: a numeric `dueDate` of 5000 is
converted to the `Date` at 5000 epoch milliseconds, an absent `dueDate`
yields the epoch-zero default, and the unparseable string `"garbage"`
is rejected with 400. -/
theorem task_duedate_handling_witness :
    (taskCandidate
        ⟨none, some (.num 1), some (.str "x"), none, some (.num 5000), none⟩).dueDate
      = jsNewDate (.num 5000) ∧
    (taskCandidate ⟨none, some (.num 1), some (.str "x"), none, none, none⟩).dueDate
      = .date 0 ∧
    (postTasks [1] ⟨[], 1⟩
        ⟨none, some (.num 1), some (.str "x"), none, some (.str "garbage"), none⟩).resp.status
      = 400 := by
  have h1 := (task_duedate_handling [1] ⟨[], 1⟩
    ⟨none, some (.num 1), some (.str "x"), none, some (.num 5000), none⟩).1
    (.num 5000) rfl (by decide)
  have h2 := (task_duedate_handling [1] ⟨[], 1⟩
    ⟨none, some (.num 1), some (.str "x"), none, none, none⟩).2.1 rfl
  have h3 := (task_duedate_handling [1] ⟨[], 1⟩
    ⟨none, some (.num 1), some (.str "x"), none, some (.str "garbage"), none⟩).2.2
    "garbage" rfl (by decide) rfl
  exact ⟨h1, h2.1, h3.1⟩

/-- A `User` candidate whose `name` is a string always saves: the
insert (or update, when the candidate carries the id of an existing
row) succeeds. -/
theorem saveUser_isSome_of_str (st : UserStore) (cid : Option ℚ) (s : String) :
    ∃ st2 row, saveUser st ⟨cid, some (.str s)⟩ = some (st2, row) := by
  rcases cid with - | i
  · exact ⟨_, _, rfl⟩
  · rcases hex : (st.rows.any fun r => decide (r.id = i)) with - | -
    · exact ⟨⟨st.rows ++ [⟨i, .str s⟩], max st.nextId (i + 1)⟩, ⟨i, .str s⟩,
        by simp [saveUser, hex]⟩
    · exact ⟨⟨st.rows.map (fun r => if r.id = i then ⟨i, .str s⟩ else r), st.nextId⟩,
        ⟨i, .str s⟩, by simp [saveUser, hex]⟩

/-- Claim C3, counterexample: `POST /api/users` with `name` equal to
the empty string is not rejected: the `IsString` check accepts `""`
(the entity has no non-emptiness constraint), so the user is inserted
and returned with 201. -/
theorem user_create_empty_name_accepted :
    (postUsers ⟨[], 1⟩ ⟨none, some (.str "")⟩).resp = .created ⟨1, .str ""⟩ ∧
    (postUsers ⟨[], 1⟩ ⟨none, some (.str "")⟩).store.rows = [⟨1, .str ""⟩] :=
  ⟨rfl, rfl⟩

/-- Claim C3 (amended): a create-user body whose `name` is missing or
not a string is rejected with 400, the response carrying the non-empty
collection of per-field violations, and the store is not touched; a
body whose `name` is any string — the empty string included — passes
validation and is answered with 201, an id-less body being inserted as
a fresh row. -/
theorem user_create_name_validation (st : UserStore) (b : UserBody) :
    ((∀ s, b.name ≠ some (.str s)) →
      postUsers st b = ⟨.badRequest [⟨"name", "isString"⟩], st, false⟩) ∧
    (∀ s, b.name = some (.str s) →
      (postUsers st b).resp.status = 201 ∧
      (b.id = none →
        postUsers st b
          = ⟨.created ⟨st.nextId, .str s⟩,
              ⟨st.rows ++ [⟨st.nextId, .str s⟩], st.nextId + 1⟩, true⟩)) := by
  constructor
  · intro h
    have hval : validateUser (plainToUser b) = [⟨"name", "isString"⟩] := by
      rcases hb : b.name with - | v
      · simp [validateUser, plainToUser, hb]
      · rcases v with s | q | c | - | t | -
        · exact absurd hb (h s)
        all_goals simp [validateUser, plainToUser, hb, isStringOk]
    simp [postUsers, hval]
  · intro s hs
    have hval : validateUser (plainToUser b) = [] := by
      simp [validateUser, plainToUser, hs, isStringOk]
    have hc : plainToUser b = ⟨b.id, some (.str s)⟩ := by
      simp [plainToUser, hs]
    obtain ⟨st2, row, hsave⟩ := saveUser_isSome_of_str st b.id s
    rw [← hc] at hsave
    constructor
    · simp [postUsers, hval, hsave, Resp.status]
    · intro hid
      simp [postUsers, hval, saveUser, plainToUser, validateUser, isStringOk, hs, hid]

/-- Claim C3 (amended) instantiated: a body without a `name` is
rejected 400 with the `name` violation and no write; a body with the
string name `"Ann"` is answered 201. -/
theorem user_create_name_validation_witness :
    postUsers ⟨[], 1⟩ ⟨none, none⟩
      = ⟨.badRequest [⟨"name", "isString"⟩], ⟨[], 1⟩, false⟩ ∧
    (postUsers ⟨[], 1⟩ ⟨none, some (.str "Ann")⟩).resp.status = 201 :=
  ⟨(user_create_name_validation ⟨[], 1⟩ ⟨none, none⟩).1 (fun s => by simp),
   ((user_create_name_validation ⟨[], 1⟩ ⟨none, some (.str "Ann")⟩).2 "Ann" rfl).1⟩

/-- Claim C4, counterexample: a create-user body that supplies
`id = 1` while a user with id 1 exists is not protected against: the
id is copied onto the instance by `plainToInstance`, no validator
rejects it, and `save` updates the existing row — `POST /api/users`
with `{id: 1, name: "Bob"}` overwrites Alice and answers 201 with the
client-chosen id. -/
theorem user_create_client_id_overwrites :
    (postUsers ⟨[⟨1, .str "Alice"⟩], 2⟩ ⟨some 1, some (.str "Bob")⟩).resp
      = .created ⟨1, .str "Bob"⟩ ∧
    (postUsers ⟨[⟨1, .str "Alice"⟩], 2⟩ ⟨some 1, some (.str "Bob")⟩).store.rows
      = [⟨1, .str "Bob"⟩] :=
  ⟨rfl, rfl⟩

/-- Claim C4 (amended): the store assigns the id only when the body
carries none — such a request appends a fresh row with the counter id
and leaves every existing row unchanged; a body that does supply an id
has that id used as the saved record's id (updating the existing row
with that id when there is one). -/
theorem user_create_id_assignment (st : UserStore) (b : UserBody) (s : String)
    (hname : b.name = some (.str s)) :
    (b.id = none →
      postUsers st b
        = ⟨.created ⟨st.nextId, .str s⟩,
            ⟨st.rows ++ [⟨st.nextId, .str s⟩], st.nextId + 1⟩, true⟩) ∧
    (∀ i, b.id = some i → ∃ st2, postUsers st b = ⟨.created ⟨i, .str s⟩, st2, true⟩) := by
  have hval : validateUser (plainToUser b) = [] := by
    simp [validateUser, plainToUser, hname, isStringOk]
  constructor
  · intro hid
    simp [postUsers, hval, saveUser, plainToUser, validateUser, isStringOk, hname, hid]
  · intro i hid
    by_cases hex : (st.rows.any fun r => decide (r.id = i)) = true
    · exact ⟨⟨st.rows.map (fun r => if r.id = i then ⟨i, .str s⟩ else r), st.nextId⟩,
        by simp [postUsers, hval, saveUser, plainToUser, validateUser, isStringOk,
          hname, hid, hex]⟩
    · exact ⟨⟨st.rows ++ [⟨i, .str s⟩], max st.nextId (i + 1)⟩,
        by simp [postUsers, hval, saveUser, plainToUser, validateUser, isStringOk,
          hname, hid, hex]⟩

/-- Claim C4 (amended) instantiated: an id-less body is inserted with
the store counter id 5; a body supplying id 9 is saved with id 9. -/
theorem user_create_id_assignment_witness :
    postUsers ⟨[], 5⟩ ⟨none, some (.str "Ann")⟩
      = ⟨.created ⟨5, .str "Ann"⟩, ⟨[⟨5, .str "Ann"⟩], 5 + 1⟩, true⟩ ∧
    ∃ st2, postUsers ⟨[], 5⟩ ⟨some 9, some (.str "Ann")⟩
      = ⟨.created ⟨9, .str "Ann"⟩, st2, true⟩ := by
  have h1 := (user_create_id_assignment ⟨[], 5⟩ ⟨none, some (.str "Ann")⟩ "Ann" rfl).1 rfl
  have h2 := (user_create_id_assignment ⟨[], 5⟩ ⟨some 9, some (.str "Ann")⟩ "Ann" rfl).2 9 rfl
  refine ⟨?_, h2⟩
  rw [h1]
  rfl

/-- A non-empty list's `isEmpty` is `false`. -/
theorem isEmpty_false_of_ne {α : Type} {l : List α} (h : l ≠ []) : l.isEmpty = false := by
  rcases l with - | ⟨a, t⟩
  · exact absurd rfl h
  · rfl

/-- Claim C5: the update routes re-validate the merged record for User
and List — a merged record that fails validation is answered 400 with
the violations and nothing is saved — while the Task update route runs
no validation at all: its response is never a validation 400, and the
merged record goes straight to `save`. -/
theorem update_revalidation
    (userIds listIds : List ℚ) (us : UserStore) (ls : ListStore) (ts : TaskStore)
    (idStr : String) (ub : UserBody) (lb : ListBody) (tb : TaskBody)
    (hv : validateIdParam (jsNumber idStr) = true) :
    (∀ u, findRow UserRow.id us.rows (jsNumber idStr) = some u →
      validateUser (mergeUser u ub) ≠ [] →
      putUser us idStr ub = ⟨.badRequest (validateUser (mergeUser u ub)), us, true⟩) ∧
    (∀ l, findRow ListRow.id ls.rows (jsNumber idStr) = some l →
      validateList (mergeList l lb) ≠ [] →
      putList userIds ls idStr lb
        = ⟨.badRequest (validateList (mergeList l lb)), ls, true⟩) ∧
    (∀ e, (putTask listIds ts idStr tb).resp ≠ .badRequest e) ∧
    (∀ t st2 r, findRow TaskRow.id ts.rows (jsNumber idStr) = some t →
      saveTask listIds ts (mergeTask t tb) = some (st2, r) →
      putTask listIds ts idStr tb = ⟨.okOne r, st2, true⟩) := by
  refine ⟨?_, ?_, ?_, ?_⟩
  · intro u hf hne
    simp [putUser, hv, hf, isEmpty_false_of_ne hne]
  · intro l hf hne
    simp [putList, hv, hf, isEmpty_false_of_ne hne]
  · intro e
    simp only [putTask, hv, if_true]
    cases hf : findRow TaskRow.id ts.rows (jsNumber idStr) with
    | none => simp
    | some t =>
      cases hs : saveTask listIds ts (mergeTask t tb) with
      | none => simp [hs]
      | some p =>
        obtain ⟨st2, r⟩ := p
        simp [hs]
  · intro t st2 r hf hs
    simp [putTask, hv, hf, hs]

/-- Claim C5 instantiated: updating user 1 with a numeric `name` is
rejected 400 with the `name` violation and the store kept; updating
task 3 with the same kind of invalid body (`text` set to a number) is
not validated — no 400 is possible and the merged record is saved and
returned 200. -/
theorem update_revalidation_witness :
    putUser ⟨[⟨1, .str "A"⟩], 2⟩ "1" ⟨none, some (.num 7)⟩
      = ⟨.badRequest [⟨"name", "isString"⟩], ⟨[⟨1, .str "A"⟩], 2⟩, true⟩ ∧
    (putTask [1] ⟨[⟨3, .num 1, .str "t", .str "", .date 0, .bool false⟩], 4⟩ "3"
        ⟨none, none, some (.num 7), none, none, none⟩).resp ≠ .badRequest [] ∧
    putTask [1] ⟨[⟨3, .num 1, .str "t", .str "", .date 0, .bool false⟩], 4⟩ "3"
        ⟨none, none, some (.num 7), none, none, none⟩
      = ⟨.okOne ⟨3, .num 1, .num 7, .str "", .date 0, .bool false⟩,
          ⟨[⟨3, .num 1, .num 7, .str "", .date 0, .bool false⟩], 4⟩, true⟩ := by
  have h1 := (update_revalidation [] [] ⟨[⟨1, .str "A"⟩], 2⟩ ⟨[], 1⟩ ⟨[], 1⟩ "1"
    ⟨none, some (.num 7)⟩ ⟨none, none, none⟩ ⟨none, none, none, none, none, none⟩
    (by decide)).1 ⟨1, .str "A"⟩ rfl (by decide)
  have h2 := update_revalidation [] [1] ⟨[], 1⟩ ⟨[], 1⟩
    ⟨[⟨3, .num 1, .str "t", .str "", .date 0, .bool false⟩], 4⟩ "3"
    ⟨none, none⟩ ⟨none, none, none⟩ ⟨none, none, some (.num 7), none, none, none⟩
    (by decide)
  refine ⟨by rw [h1]; rfl, h2.2.2.1 [], ?_⟩
  have h3 := h2.2.2.2 ⟨3, .num 1, .str "t", .str "", .date 0, .bool false⟩
    ⟨[⟨3, .num 1, .num 7, .str "", .date 0, .bool false⟩], 4⟩
    ⟨3, .num 1, .num 7, .str "", .date 0, .bool false⟩ rfl rfl
  rw [h3]

/-- Claim C6: for a valid parent id, the parent-filtered queries
`GET /api/lists/user/:id` and `GET /api/tasks/list/:id` answer 404 when
the filtered result set is empty and 200 with the array of matching
rows when it is not. -/
theorem parent_filtered_queries (ls : ListStore) (ts : TaskStore) (idStr : String)
    (hv : validateIdParam (jsNumber idStr) = true) :
    (ls.rows.filter (userIdMatches (jsNumber idStr)) = [] →
      getListsByUser ls idStr = ⟨.notFound, ls, true⟩) ∧
    (ls.rows.filter (userIdMatches (jsNumber idStr)) ≠ [] →
      getListsByUser ls idStr
        = ⟨.okMany (ls.rows.filter (userIdMatches (jsNumber idStr))), ls, true⟩) ∧
    (ts.rows.filter (listIdMatches (jsNumber idStr)) = [] →
      getTasksByList ts idStr = ⟨.notFound, ts, true⟩) ∧
    (ts.rows.filter (listIdMatches (jsNumber idStr)) ≠ [] →
      getTasksByList ts idStr
        = ⟨.okMany (ts.rows.filter (listIdMatches (jsNumber idStr))), ts, true⟩) := by
  refine ⟨?_, ?_, ?_, ?_⟩ <;> intro h
  · simp [getListsByUser, hv, h]
  · simp [getListsByUser, hv, isEmpty_false_of_ne h]
  · simp [getTasksByList, hv, h]
  · simp [getTasksByList, hv, isEmpty_false_of_ne h]

/-- Claim C6 instantiated: user 2 with no lists gets a 404; user 2
with one list gets a 200 array holding it; likewise for the tasks of
list 1. -/
theorem parent_filtered_queries_witness :
    getListsByUser ⟨[], 1⟩ "2" = ⟨.notFound, ⟨[], 1⟩, true⟩ ∧
    getListsByUser ⟨[⟨1, .num 2, .str "G"⟩], 2⟩ "2"
      = ⟨.okMany [⟨1, .num 2, .str "G"⟩], ⟨[⟨1, .num 2, .str "G"⟩], 2⟩, true⟩ ∧
    getTasksByList ⟨[], 1⟩ "1" = ⟨.notFound, ⟨[], 1⟩, true⟩ := by
  have h1 := (parent_filtered_queries ⟨[], 1⟩ ⟨[], 1⟩ "2" (by decide)).1 rfl
  have h2 := (parent_filtered_queries ⟨[⟨1, .num 2, .str "G"⟩], 2⟩ ⟨[], 1⟩ "2"
    (by decide)).2.1 (by decide)
  have h3 := (parent_filtered_queries ⟨[], 1⟩ ⟨[], 1⟩ "1" (by decide)).2.2.1 rfl
  exact ⟨h1, by rw [h2]; rfl, h3⟩

/-- Claim C7: on every route carrying an `:id` path parameter, an id
string that does not convert to a number, or converts to a number not
strictly greater than zero, is answered 400 by the shared middleware
with the store never accessed; an id that passes the check reaches the
route handler, whose first step touches the store. -/
theorem id_param_validation (idStr : String)
    (userIds listIds : List ℚ) (us : UserStore) (ls : ListStore) (ts : TaskStore)
    (ub : UserBody) (lb : ListBody) (tb : TaskBody) :
    (validateIdParam (jsNumber idStr) = false →
      getUserById us idStr = ⟨.badId, us, false⟩ ∧
      putUser us idStr ub = ⟨.badId, us, false⟩ ∧
      deleteUser us idStr = ⟨.badId, us, false⟩ ∧
      getListsByUser ls idStr = ⟨.badId, ls, false⟩ ∧
      getListById ls idStr = ⟨.badId, ls, false⟩ ∧
      putList userIds ls idStr lb = ⟨.badId, ls, false⟩ ∧
      deleteList ls idStr = ⟨.badId, ls, false⟩ ∧
      getTasksByList ts idStr = ⟨.badId, ts, false⟩ ∧
      getTaskById ts idStr = ⟨.badId, ts, false⟩ ∧
      putTask listIds ts idStr tb = ⟨.badId, ts, false⟩ ∧
      deleteTask ts idStr = ⟨.badId, ts, false⟩) ∧
    (validateIdParam (jsNumber idStr) = true →
      (getUserById us idStr).accessed = true ∧
      (putUser us idStr ub).accessed = true ∧
      (deleteUser us idStr).accessed = true ∧
      (getListsByUser ls idStr).accessed = true ∧
      (getListById ls idStr).accessed = true ∧
      (putList userIds ls idStr lb).accessed = true ∧
      (deleteList ls idStr).accessed = true ∧
      (getTasksByList ts idStr).accessed = true ∧
      (getTaskById ts idStr).accessed = true ∧
      (putTask listIds ts idStr tb).accessed = true ∧
      (deleteTask ts idStr).accessed = true) := by
  constructor
  · intro h
    refine ⟨?_, ?_, ?_, ?_, ?_, ?_, ?_, ?_, ?_, ?_, ?_⟩ <;>
      simp [getUserById, putUser, deleteUser, getListsByUser, getListById, putList,
        deleteList, getTasksByList, getTaskById, putTask, deleteTask, h]
  · intro h
    refine ⟨?_, ?_, ?_, ?_, ?_, ?_, ?_, ?_, ?_, ?_, ?_⟩ <;>
    · simp only [getUserById, putUser, deleteUser, getListsByUser, getListById, putList,
        deleteList, getTasksByList, getTaskById, putTask, deleteTask, h, if_true]
      repeat' split
      all_goals rfl

/-- Claim C7 instantiated on the spec's own examples: the id strings
`"abc"`, `"0"` and `"-1"` are all rejected 400 with no store access,
while `"2"` passes and the store is read. -/
theorem id_param_validation_witness :
    validateIdParam (jsNumber "abc") = false ∧
    validateIdParam (jsNumber "0") = false ∧
    validateIdParam (jsNumber "-1") = false ∧
    getUserById ⟨[⟨1, .str "A"⟩], 2⟩ "abc" = ⟨.badId, ⟨[⟨1, .str "A"⟩], 2⟩, false⟩ ∧
    getUserById ⟨[⟨1, .str "A"⟩], 2⟩ "0" = ⟨.badId, ⟨[⟨1, .str "A"⟩], 2⟩, false⟩ ∧
    getUserById ⟨[⟨1, .str "A"⟩], 2⟩ "-1" = ⟨.badId, ⟨[⟨1, .str "A"⟩], 2⟩, false⟩ ∧
    validateIdParam (jsNumber "2") = true ∧
    (getUserById ⟨[⟨1, .str "A"⟩], 2⟩ "2").accessed = true := by
  have habc := (id_param_validation "abc" [] [] ⟨[⟨1, .str "A"⟩], 2⟩ ⟨[], 1⟩ ⟨[], 1⟩
    ⟨none, none⟩ ⟨none, none, none⟩ ⟨none, none, none, none, none, none⟩).1 (by decide)
  have h0 := (id_param_validation "0" [] [] ⟨[⟨1, .str "A"⟩], 2⟩ ⟨[], 1⟩ ⟨[], 1⟩
    ⟨none, none⟩ ⟨none, none, none⟩ ⟨none, none, none, none, none, none⟩).1 (by decide)
  have hm1 := (id_param_validation "-1" [] [] ⟨[⟨1, .str "A"⟩], 2⟩ ⟨[], 1⟩ ⟨[], 1⟩
    ⟨none, none⟩ ⟨none, none, none⟩ ⟨none, none, none, none, none, none⟩).1 (by decide)
  have h2 := (id_param_validation "2" [] [] ⟨[⟨1, .str "A"⟩], 2⟩ ⟨[], 1⟩ ⟨[], 1⟩
    ⟨none, none⟩ ⟨none, none, none⟩ ⟨none, none, none, none, none, none⟩).2 (by decide)
  exact ⟨by decide, by decide, by decide, habc.1, h0.1, hm1.1, by decide, h2.1⟩

/-- Claim C8: a successful `PUT` returns (and saves) exactly the merge
of the stored record and the body: every field absent from the body
keeps the stored value and every field present in the body overwrites
it, field by field, shown here for the User and Task routes. -/
theorem put_merge_retains_fields
    (listIds : List ℚ) (us : UserStore) (ts : TaskStore) (idStr : String)
    (ub : UserBody) (tb : TaskBody) :
    (∀ r, (putUser us idStr ub).resp = .okOne r →
      ∃ u, findRow UserRow.id us.rows (jsNumber idStr) = some u ∧
        r.id = ub.id.getD u.id ∧ r.name = ub.name.getD u.name) ∧
    (∀ r, (putTask listIds ts idStr tb).resp = .okOne r →
      ∃ t, findRow TaskRow.id ts.rows (jsNumber idStr) = some t ∧
        r.id = tb.id.getD t.id ∧ r.listId = tb.listId.getD t.listId ∧
        r.text = tb.text.getD t.text ∧
        r.description = tb.description.getD t.description ∧
        r.dueDate = tb.dueDate.getD t.dueDate ∧
        r.completed = tb.completed.getD t.completed) := by
  constructor
  · intro r h
    simp only [putUser] at h
    split at h
    · split at h
      next u hf =>
        split at h
        · split at h
          next st2 row hs =>
            simp only [Resp.okOne.injEq] at h
            subst h
            obtain ⟨hid, hname⟩ := saveUser_row hs
            refine ⟨u, hf, ?_, ?_⟩
            · simpa [mergeUser] using hid
            · have h2 := hname
              simp only [mergeUser, Option.some.injEq] at h2
              exact h2.symm
          next hs => simp at h
        · simp at h
      next hf => simp at h
    · simp at h
  · intro r h
    simp only [putTask] at h
    split at h
    · split at h
      next t hf =>
        split at h
        next st2 row hs =>
          simp only [Resp.okOne.injEq] at h
          subst h
          obtain ⟨hid, hl, ht, hd, hdd, hc⟩ := saveTask_row hs
          refine ⟨t, hf, ?_, ?_, ?_, ?_, ?_, ?_⟩
          · simpa [mergeTask] using hid
          · have h2 := hl
            simp only [mergeTask, Option.some.injEq] at h2
            exact h2.symm
          · have h2 := ht
            simp only [mergeTask, Option.some.injEq] at h2
            exact h2.symm
          · simpa [mergeTask] using hd
          · simpa [mergeTask] using hdd
          · simpa [mergeTask] using hc
        next hs => simp at h
      next hf => simp at h
    · simp at h

/-- Claim C8 instantiated: updating user 1 (named A) with a body that
carries only `name: "B"` yields a row whose id is retained from the
stored record and whose name is the body's value. -/
theorem put_merge_retains_fields_witness :
    (putUser ⟨[⟨1, .str "A"⟩], 2⟩ "1" ⟨none, some (.str "B")⟩).resp
      = .okOne ⟨1, .str "B"⟩ ∧
    ∃ u, findRow UserRow.id [⟨1, .str "A"⟩] (jsNumber "1") = some u ∧
      (1 : ℚ) = (none : Option ℚ).getD u.id ∧
      JSVal.str "B" = (some (JSVal.str "B")).getD u.name := by
  have h := (put_merge_retains_fields [] ⟨[⟨1, .str "A"⟩], 2⟩ ⟨[], 1⟩ "1"
    ⟨none, some (.str "B")⟩ ⟨none, none, none, none, none, none⟩).1 ⟨1, .str "B"⟩ rfl
  exact ⟨rfl, h⟩

/-- Claim C9: for a valid id, `DELETE /api/tasks/:id` answers 204
exactly when a row with that id was removed and 404 when none matched;
deleting the same id twice gives 204 then 404, the second call finding
nothing left to remove. -/
theorem delete_task_semantics (ts : TaskStore) (idStr : String)
    (hv : validateIdParam (jsNumber idStr) = true) :
    ((∃ r ∈ ts.rows, JSNum.fin r.id = jsNumber idStr) →
      (deleteTask ts idStr).resp = .noContent ∧
      (deleteTask (deleteTask ts idStr).store idStr).resp = .notFound) ∧
    ((∀ r ∈ ts.rows, JSNum.fin r.id ≠ jsNumber idStr) →
      deleteTask ts idStr = ⟨.notFound, ts, true⟩) := by
  constructor
  · intro h
    obtain ⟨r0, hr0, heq⟩ := h
    have hlt : (ts.rows.filter
        (fun r => !decide (JSNum.fin r.id = jsNumber idStr))).length < ts.rows.length := by
      refine Nat.lt_of_le_of_ne (List.length_filter_le _ _) ?_
      intro hcontra
      have hp := List.filter_length_eq_length.mp hcontra r0 hr0
      rw [heq] at hp
      simp at hp
    have hcnt : ts.rows.length - (ts.rows.filter
        (fun r => !decide (JSNum.fin r.id = jsNumber idStr))).length ≠ 0 :=
      Nat.sub_ne_zero_of_lt hlt
    have hST : (deleteTask ts idStr).store
        = ⟨ts.rows.filter (fun r => !decide (JSNum.fin r.id = jsNumber idStr)),
            ts.nextId⟩ := by
      simp [deleteTask, deleteRows, hv, hcnt]
    refine ⟨by simp [deleteTask, deleteRows, hv, hcnt], ?_⟩
    rw [hST]
    have hkeep : (ts.rows.filter
          (fun r => !decide (JSNum.fin r.id = jsNumber idStr))).filter
          (fun r => !decide (JSNum.fin r.id = jsNumber idStr))
        = ts.rows.filter (fun r => !decide (JSNum.fin r.id = jsNumber idStr)) :=
      List.filter_eq_self.mpr (fun a ha => (List.mem_filter.mp ha).2)
    simp [deleteTask, deleteRows, hv, hkeep]
  · intro h
    have hkeep : ts.rows.filter (fun r => !decide (JSNum.fin r.id = jsNumber idStr))
        = ts.rows :=
      List.filter_eq_self.mpr (fun a ha => by simpa using h a ha)
    simp [deleteTask, deleteRows, hv, hkeep]

/-- Claim C9 instantiated: with exactly task 3 in the store, deleting
id 3 answers 204 and a second identical call answers 404; deleting the
absent id 7 answers 404 with the store unchanged. -/
theorem delete_task_semantics_witness :
    (deleteTask ⟨[⟨3, .num 1, .str "t", .str "", .date 0, .bool false⟩], 4⟩ "3").resp
      = .noContent ∧
    (deleteTask
        (deleteTask ⟨[⟨3, .num 1, .str "t", .str "", .date 0, .bool false⟩], 4⟩ "3").store
        "3").resp = .notFound ∧
    deleteTask ⟨[⟨3, .num 1, .str "t", .str "", .date 0, .bool false⟩], 4⟩ "7"
      = ⟨.notFound, ⟨[⟨3, .num 1, .str "t", .str "", .date 0, .bool false⟩], 4⟩, true⟩ := by
  have h1 := (delete_task_semantics
    ⟨[⟨3, .num 1, .str "t", .str "", .date 0, .bool false⟩], 4⟩ "3" (by decide)).1
    ⟨⟨3, .num 1, .str "t", .str "", .date 0, .bool false⟩, by simp, by decide⟩
  have h2 := (delete_task_semantics
    ⟨[⟨3, .num 1, .str "t", .str "", .date 0, .bool false⟩], 4⟩ "7" (by decide)).2
    (by decide)
  exact ⟨h1.1, h1.2, h2⟩

/-- Claim C10: the shared id validator accepts every id string whose
`Number` conversion is strictly positive, non-integers such as `"1.5"`
and non-finite values such as `"Infinity"` included; on such an input
the request is not rejected with 400 — the handler proceeds and the
store is queried with the non-integer id. -/
theorem id_validator_accepts_nonintegers :
    validateIdParam (jsNumber "1.5") = true ∧
    validateIdParam (jsNumber "Infinity") = true ∧
    jsNumber "1.5" = .fin (3 / 2) ∧ (3 / 2 : ℚ).den ≠ 1 ∧
    ∀ st : UserStore, (getUserById st "1.5").accessed = true ∧
      (getUserById st "1.5").resp ≠ .badId := by
  have hval : jsNumber "1.5" = .fin ((1 : ℚ) + 5 / 10 ^ 1) := rfl
  have h32 : ((1 : ℚ) + 5 / 10 ^ 1) = 3 / 2 := by norm_num
  have hv : validateIdParam (jsNumber "1.5") = true := by
    rw [hval, h32]
    simp only [validateIdParam, JSNum.isNaN, JSNum.leZero, Bool.or_eq_true,
      decide_eq_true_eq, Bool.not_eq_true', Bool.or_eq_false_iff, decide_eq_false_iff_not]
    norm_num
  refine ⟨hv, rfl, by rw [hval, h32], by norm_num [Rat.den], ?_⟩
  intro st
  constructor
  · simp only [getUserById, hv, if_true]
    cases findRow UserRow.id st.rows (jsNumber "1.5") <;> rfl
  · simp only [getUserById, hv, if_true]
    cases findRow UserRow.id st.rows (jsNumber "1.5") <;> simp

end TodoApp
